import Mathlib

/-!
Shallow embedding of the serde-poly derive-macro code generator:
the borrow analyzer (type_contains_any_lifetime), the Poly expansion
(expand_poly, parse_poly_name) and the OwnablePoly expansion
(expand_ownable_poly, generate_field_transformations,
generate_enum_transformation), together with a value-level semantics of
the generated into_owned operation.
-/

namespace SerdePoly

/-- Source location of a token, abstracted as a number. -/
abbrev Span := Nat

/-- A generation-time error carrying a location and a message (syn::Error). -/
structure SynError where
  span : Span
  message : String
deriving DecidableEq

/-- A bound inside a constraint generic argument (syn::TypeParamBound);
the analyzer only inspects lifetime bounds. -/
inductive TypeParamBound
  | lifetimeBound (name : String)
  | otherBound
deriving DecidableEq

mutual

/-- Rust type expressions (syn::Type), restricted to the constructors the
borrow analyzer distinguishes; `otherTy` stands for every other case. -/
inductive RustType
  | reference (lifetime : Option String) (elem : RustType)
  | path (segments : SegmentList)
  | tuple (elems : RustTypeList)
  | array (elem : RustType)
  | ptr (elem : RustType)
  | slice (elem : RustType)
  | paren (elem : RustType)
  | group (elem : RustType)
  | otherTy

/-- The segments of a path type (syn::Path), each with an identifier and
its generic arguments. -/
inductive SegmentList
  | nil
  | cons (ident : String) (args : PathArgs) (rest : SegmentList)

/-- Arguments of one path segment (syn::PathArguments). -/
inductive PathArgs
  | noArgs
  | angleBracketed (args : ArgList)
  | parenthesized (inputs : RustTypeList) (output : RetTy)

/-- A list of angle-bracketed generic arguments. -/
inductive ArgList
  | nil
  | cons (arg : GenericArg) (rest : ArgList)

/-- One angle-bracketed generic argument (syn::GenericArgument); `otherArg`
stands for the const and associated-const cases the analyzer ignores. -/
inductive GenericArg
  | lifetimeArg (name : String)
  | typeArg (ty : RustType)
  | assocTypeArg (ty : RustType)
  | constraintArg (bounds : List TypeParamBound)
  | otherArg

/-- A list of Rust types (tuple elements, parenthesized inputs). -/
inductive RustTypeList
  | nil
  | cons (ty : RustType) (rest : RustTypeList)

/-- The return type of parenthesized (function-style) path arguments
(syn::ReturnType). -/
inductive RetTy
  | defaultRet
  | ty (t : RustType)

end

/-- Lifetime identifier comparison against the schema's lifetime parameters,
as written in the source: lifetimes.iter().any(|param_lt| lt.ident == param_lt.ident). -/
def lifetimeMatches (lt : String) (lifetimes : List String) : Bool :=
  lifetimes.any (fun param_lt => lt == param_lt)

mutual

/-- Check if a type contains any of the specified lifetimes
(source: type_contains_any_lifetime in expand_ownable_poly.rs). -/
def type_contains_any_lifetime : RustType → List String → Bool
  | .reference lt elem, lifetimes =>
      (match lt with
       | some l => lifetimeMatches l lifetimes
       | none => false)
      || type_contains_any_lifetime elem lifetimes
  | .path segments, lifetimes => segments_contain_lifetime segments lifetimes
  | .tuple elems, lifetimes => type_list_contains_lifetime elems lifetimes
  | .array elem, lifetimes => type_contains_any_lifetime elem lifetimes
  | .ptr elem, lifetimes => type_contains_any_lifetime elem lifetimes
  | .slice elem, lifetimes => type_contains_any_lifetime elem lifetimes
  | .paren elem, lifetimes => type_contains_any_lifetime elem lifetimes
  | .group elem, lifetimes => type_contains_any_lifetime elem lifetimes
  | .otherTy, _ => false

/-- Per-segment part of the path case of the analyzer. -/
def segments_contain_lifetime : SegmentList → List String → Bool
  | .nil, _ => false
  | .cons _ args rest, lifetimes =>
      path_args_contain_lifetime args lifetimes || segments_contain_lifetime rest lifetimes

/-- Per-path-arguments part of the analyzer: angle-bracketed arguments and
parenthesized inputs and output. -/
def path_args_contain_lifetime : PathArgs → List String → Bool
  | .noArgs, _ => false
  | .angleBracketed args, lifetimes => arg_list_contains_lifetime args lifetimes
  | .parenthesized inputs output, lifetimes =>
      type_list_contains_lifetime inputs lifetimes ||
      (match output with
       | .ty t => type_contains_any_lifetime t lifetimes
       | .defaultRet => false)

/-- Disjunction of the analyzer over a list of generic arguments. -/
def arg_list_contains_lifetime : ArgList → List String → Bool
  | .nil, _ => false
  | .cons arg rest, lifetimes =>
      generic_arg_contains_lifetime arg lifetimes || arg_list_contains_lifetime rest lifetimes

/-- The analyzer on a single generic argument: matching lifetime arguments,
recursion into type and associated-type arguments, and lifetime bounds of
constraint arguments. -/
def generic_arg_contains_lifetime : GenericArg → List String → Bool
  | .lifetimeArg lt, lifetimes => lifetimeMatches lt lifetimes
  | .typeArg ty, lifetimes => type_contains_any_lifetime ty lifetimes
  | .assocTypeArg ty, lifetimes => type_contains_any_lifetime ty lifetimes
  | .constraintArg bounds, lifetimes =>
      bounds.any (fun bound =>
        match bound with
        | .lifetimeBound lt => lifetimeMatches lt lifetimes
        | .otherBound => false)
  | .otherArg, _ => false

/-- Disjunction of the analyzer over a list of types. -/
def type_list_contains_lifetime : RustTypeList → List String → Bool
  | .nil, _ => false
  | .cons ty rest, lifetimes =>
      type_contains_any_lifetime ty lifetimes || type_list_contains_lifetime rest lifetimes

end

/-- One generic parameter of a declaration (syn::GenericParam); lifetimes
keep their source span for error reporting. -/
inductive GenericParam
  | lifetimeParam (name : String) (span : Span)
  | typeParam (name : String)
  | constParam (name : String)
deriving DecidableEq

/-- The fields of a struct or of an enum variant (syn::Fields). -/
inductive FieldsShape
  | named (fields : List (String × RustType))
  | unnamed (fields : List RustType)
  | unit

/-- One enum variant (syn::Variant). -/
structure VariantDecl where
  name : String
  fields : FieldsShape

/-- The data part of a derive input (syn::Data); the union case keeps the
span of its union token. -/
inductive DataDecl
  | structData (fields : FieldsShape)
  | enumData (variants : List VariantDecl)
  | unionData (unionTokenSpan : Span)

/-- One nested meta item inside a poly list attribute: a name item with its
string value and the span of the string literal, or an unsupported item
with the span used by meta.error. -/
inductive PolyMetaItem
  | nameItem (value : String) (span : Span)
  | otherItem (span : Span)
deriving DecidableEq

/-- The meta shape of an attribute (syn::Meta). -/
inductive AttrMeta
  | pathMeta
  | listMeta (items : List PolyMetaItem)
  | nameValueMeta
deriving DecidableEq

/-- One attribute on the derive input: whether its path is poly, its meta
shape, and its overall span. -/
structure AttributeDecl where
  isPolyPath : Bool
  meta : AttrMeta
  span : Span
deriving DecidableEq

/-- The derive macro input (syn::DeriveInput). -/
structure DeriveInputDecl where
  attrs : List AttributeDecl
  ident : String
  generics : List GenericParam
  data : DataDecl

/-- The resolved tag-type name together with the span of the naming
attribute when one was used (source: struct PolyName). -/
structure PolyName where
  ident : String
  attr_span : Option Span
deriving DecidableEq

/-- Sequential processing of the nested items of one poly list attribute
(source: the parse_nested_meta closure in parse_poly_name); a later name
item overwrites an earlier one, an unsupported item aborts with an error. -/
def parse_meta_items (items : List PolyMetaItem) (provided : Option String)
    (sp : Option Span) : Except SynError (Option String × Option Span) :=
  match items with
  | [] => .ok (provided, sp)
  | .nameItem value vspan :: rest => parse_meta_items rest (some value) (some vspan)
  | .otherItem ospan :: _ => .error ⟨ospan, "unsupported poly attribute"⟩

/-- Sequential processing of the attribute list (source: the attribute loop
in parse_poly_name): non-poly attributes are skipped, a bare poly path is
ignored, a poly list is parsed item by item, and a poly name-value meta is
an error at the attribute span. -/
def parse_poly_attrs (attrs : List AttributeDecl) (provided : Option String)
    (sp : Option Span) : Except SynError (Option String × Option Span) :=
  match attrs with
  | [] => .ok (provided, sp)
  | attr :: rest =>
    if attr.isPolyPath then
      match attr.meta with
      | .pathMeta => parse_poly_attrs rest provided sp
      | .listMeta items =>
        match parse_meta_items items provided sp with
        | .ok (p, s) => parse_poly_attrs rest p s
        | .error e => .error e
      | .nameValueMeta => .error ⟨attr.span, "unsupported poly attribute"⟩
    else
      parse_poly_attrs rest provided sp

/-- Resolve the generated tag-type name from the attributes and the original
identifier (source: parse_poly_name); the default appends the suffix Poly. -/
def parse_poly_name (attrs : List AttributeDecl) (original : String) :
    Except SynError PolyName :=
  match parse_poly_attrs attrs none none with
  | .error e => .error e
  | .ok (provided, span) =>
    .ok { ident := provided.getD (original ++ "Poly"), attr_span := span }

/-- The lifetime parameters of a generics list, in order, with their spans
(source: the lifetime_params collection in expand_poly and
expand_ownable_poly). -/
def lifetimeParams (generics : List GenericParam) : List (String × Span) :=
  generics.filterMap (fun param =>
    match param with
    | .lifetimeParam name sp => some (name, sp)
    | _ => none)

/-- The non-lifetime parameters of a generics list, in order (source: the
poly_generics construction in expand_poly). -/
def nonLifetimeParams (generics : List GenericParam) : List GenericParam :=
  generics.filter (fun param =>
    match param with
    | .lifetimeParam _ _ => false
    | _ => true)

/-- One phantom marker field of the generated tag struct: a
PhantomData of fn() -> T for a retained type parameter T, and a
PhantomData of fn() -> () for a retained const parameter. -/
inductive PhantomField
  | typeMarker (paramName : String)
  | constMarker
deriving DecidableEq

/-- The marker fields of the generated tag struct, one per retained
parameter (source: the phantom_fields construction in expand_poly). -/
def phantomFields (polyParams : List GenericParam) : List PhantomField :=
  polyParams.filterMap (fun param =>
    match param with
    | .typeParam n => some (.typeMarker n)
    | .constParam _ => some .constMarker
    | .lifetimeParam _ _ => none)

/-- One generic argument appearing in a generated type reference: a
lifetime argument or a type or const parameter identifier. -/
inductive OutArg
  | lifetimeArgOut (name : String)
  | paramArgOut (name : String)
deriving DecidableEq

/-- A generated associated-type right-hand side: Self, or a named type
applied to arguments. -/
inductive OutTy
  | selfTy
  | namedTy (name : String) (args : List OutArg)
deriving DecidableEq

/-- The declaration of the generated tag struct: its name, its generic
parameters and its phantom marker fields. -/
structure PolyStructDecl where
  name : String
  params : List GenericParam
  fields : List PhantomField
deriving DecidableEq

/-- One item of the generated token stream of expand_poly. The serde
Serialize impl records the name passed to serialize_unit_struct; a serde
Deserialize impl is representable but never produced by the generator. -/
inductive GeneratedItem
  | polyStructItem (decl : PolyStructDecl)
  | serdeSerializeItem (target : String) (unitStructName : String)
  | serdeDeserializeItem (target : String)
  | deserializePolyItem (targetName : String) (targetArgs : List OutArg) (out : OutTy)
  | serializePolyItem (targetName : String) (targetArgs : List OutArg) (out : OutTy)
deriving DecidableEq

/-- The identifier arguments of the retained parameters, in order (source:
the poly_ty_args construction in expand_poly). -/
def polyTyArgs (polyParams : List GenericParam) : List OutArg :=
  polyParams.filterMap (fun param =>
    match param with
    | .typeParam n => some (.paramArgOut n)
    | .constParam n => some (.paramArgOut n)
    | .lifetimeParam _ _ => none)

/-- The arguments of the original type as written at its impl head, one per
generic parameter in order (syn ty_generics). -/
def tyGenericsArgs (generics : List GenericParam) : List OutArg :=
  generics.map (fun param =>
    match param with
    | .lifetimeParam n _ => .lifetimeArgOut n
    | .typeParam n => .paramArgOut n
    | .constParam n => .paramArgOut n)

/-- The arguments of the DeserializePoly output type, one per generic
parameter in original order, with every lifetime parameter replaced by the
de lifetime (source: the out_ty_args construction in expand_poly). -/
def outTyArgs (generics : List GenericParam) : List OutArg :=
  generics.map (fun param =>
    match param with
    | .lifetimeParam _ _ => .lifetimeArgOut "de"
    | .typeParam n => .paramArgOut n
    | .constParam n => .paramArgOut n)

/-- Expansion of the Poly derive (source: expand_poly in
serde-poly-macro/src/lib.rs): reject unions, resolve the tag name, reject
a second lifetime parameter, reject a naming attribute on a type without
lifetimes, and emit the tag struct with its serde Serialize impl plus the
DeserializePoly and SerializePoly impls. -/
def expand_poly (input : DeriveInputDecl) : Except SynError (List GeneratedItem) :=
  match input.data with
  | .unionData sp => .error ⟨sp, "Poly derive does not support unions"⟩
  | _ =>
    match parse_poly_name input.attrs input.ident with
    | .error e => .error e
    | .ok poly_name =>
      let lifetime_params := lifetimeParams input.generics
      match lifetime_params with
      | _ :: offending :: _ =>
          .error ⟨offending.2, "Poly derive supports at most one lifetime parameter"⟩
      | _ =>
        let has_lifetime := !lifetime_params.isEmpty
        match (if has_lifetime then none else poly_name.attr_span) with
        | some sp =>
            .error ⟨sp,
              "poly(name = \"...\") is only valid for types with a single lifetime parameter"⟩
        | none =>
          let poly_ident := poly_name.ident
          let poly_params := nonLifetimeParams input.generics
          let poly_ty_args := polyTyArgs poly_params
          let serialize_out : OutTy :=
            if has_lifetime then .namedTy poly_ident poly_ty_args else .selfTy
          let deserialize_out : OutTy :=
            if has_lifetime then .namedTy input.ident (outTyArgs input.generics) else .selfTy
          let poly_items : List GeneratedItem :=
            if has_lifetime then
              [.polyStructItem ⟨poly_ident, poly_params, phantomFields poly_params⟩,
               .serdeSerializeItem poly_ident poly_ident]
            else []
          let deserialize_impl : GeneratedItem :=
            if has_lifetime then
              .deserializePolyItem poly_ident poly_ty_args deserialize_out
            else
              .deserializePolyItem input.ident (tyGenericsArgs input.generics) deserialize_out
          let serialize_impl : GeneratedItem :=
            .serializePolyItem input.ident (tyGenericsArgs input.generics) serialize_out
          .ok (poly_items ++ [deserialize_impl, serialize_impl])

/-- The per-field initializers of the generated into_owned body for a
struct: each field identifier or index in declaration order paired with
whether the generated code recursively calls into_owned on it. -/
inductive FieldTransform
  | namedFields (inits : List (String × Bool))
  | unnamedFields (inits : List (Nat × Bool))
  | unitFields

/-- One match arm of the generated into_owned body for an enum: the variant
name with its per-field initializers in declaration order. -/
inductive MatchArm
  | namedArm (variantName : String) (inits : List (String × Bool))
  | unnamedArm (variantName : String) (inits : List (Nat × Bool))
  | unitArm (variantName : String)

/-- The body of the generated into_owned method: the bare self for the
lifetime-free case, a struct literal, or a match over the enum variants. -/
inductive OwnableBody
  | identityBody
  | structBody (ident : String) (transform : FieldTransform)
  | enumBody (ident : String) (arms : List MatchArm)

/-- The generated OwnablePoly impl: target type, its Owned associated type
and the into_owned body. -/
structure OwnableImplDecl where
  targetName : String
  targetArgs : List OutArg
  ownedTy : OutTy
  body : OwnableBody

/-- The generics list with every lifetime parameter renamed to static,
keeping its span (source: the owned_generics construction in
expand_ownable_poly). -/
def ownedGenerics (generics : List GenericParam) : List GenericParam :=
  generics.map (fun param =>
    match param with
    | .lifetimeParam _ sp => .lifetimeParam "static" sp
    | p => p)

/-- Per-field initializers for a struct body (source:
generate_field_transformations in expand_ownable_poly.rs): each field in
declaration order is recursively converted exactly when its type contains
one of the lifetime parameters. -/
def generate_field_transformations (fields : FieldsShape)
    (lifetime_params : List String) : Except SynError FieldTransform :=
  match fields with
  | .named fs =>
      .ok (.namedFields (fs.map (fun f =>
        (f.1, type_contains_any_lifetime f.2 lifetime_params))))
  | .unnamed fs =>
      .ok (.unnamedFields (fs.enum.map (fun p =>
        (p.1, type_contains_any_lifetime p.2 lifetime_params))))
  | .unit => .ok .unitFields

/-- The match arms for an enum body (source: generate_enum_transformation
in expand_ownable_poly.rs): one arm per variant in order, preserving the
variant name, with the same per-field rule as the struct case; unit
variants map to themselves. -/
def generate_enum_transformation (enum_ident : String)
    (variants : List VariantDecl) (lifetime_params : List String) :
    Except SynError OwnableBody :=
  .ok (.enumBody enum_ident (variants.map (fun variant =>
    match variant.fields with
    | .named fs =>
        .namedArm variant.name (fs.map (fun f =>
          (f.1, type_contains_any_lifetime f.2 lifetime_params)))
    | .unnamed fs =>
        .unnamedArm variant.name (fs.enum.map (fun p =>
          (p.1, type_contains_any_lifetime p.2 lifetime_params)))
    | .unit => .unitArm variant.name)))

/-- Expansion of the OwnablePoly derive (source: expand_ownable_poly in
expand_ownable_poly.rs): with no lifetime parameters the impl is the
identity with Owned equal to Self; otherwise Owned is the type with every
lifetime replaced by static and the body is generated per shape, with
unions rejected. -/
def expand_ownable_poly (input : DeriveInputDecl) : Except SynError OwnableImplDecl :=
  let lifetime_params := lifetimeParams input.generics
  if lifetime_params.isEmpty then
    .ok { targetName := input.ident, targetArgs := tyGenericsArgs input.generics,
          ownedTy := .selfTy, body := .identityBody }
  else
    let owned_generics := ownedGenerics input.generics
    let ltNames := lifetime_params.map Prod.fst
    match input.data with
    | .structData fields =>
      match generate_field_transformations fields ltNames with
      | .error e => .error e
      | .ok transform =>
        .ok { targetName := input.ident, targetArgs := tyGenericsArgs input.generics,
              ownedTy := .namedTy input.ident (tyGenericsArgs owned_generics),
              body := .structBody input.ident transform }
    | .enumData variants =>
      match generate_enum_transformation input.ident variants ltNames with
      | .error e => .error e
      | .ok body =>
        .ok { targetName := input.ident, targetArgs := tyGenericsArgs input.generics,
              ownedTy := .namedTy input.ident (tyGenericsArgs owned_generics),
              body := body }
    | .unionData sp => .error ⟨sp, "OwnablePoly derive does not support unions"⟩

/-- The argument list of a schema instantiated at a given borrow scope:
every lifetime parameter becomes that scope, every other parameter stays
in place verbatim. -/
def instantiateAt (generics : List GenericParam) (scope : String) : List OutArg :=
  generics.map (fun param =>
    match param with
    | .lifetimeParam _ _ => .lifetimeArgOut scope
    | .typeParam n => .paramArgOut n
    | .constParam n => .paramArgOut n)

/-- Runtime values flowing through the generated into_owned operation:
Cow-like values (borrowed or owned, with their underlying data),
primitives, strings, containers from the library impls, and values of
derived struct and enum schemas. -/
inductive Val
  | cowVal (owned : Bool) (data : String)
  | primVal (n : Nat)
  | strVal (s : String)
  | vecVal (elems : List Val)
  | optVal (o : Option Val)
  | okVal (v : Val)
  | errVal (v : Val)
  | structVal (name : String) (fields : List Val)
  | enumVal (name : String) (variant : String) (fields : List Val)

/-- The recursion decisions generated for each derived schema: per struct
the list of field flags in order, per enum variant the list of its field
flags in order, each flag true exactly when the generated code calls
into_owned on that field. -/
structure SchemaEnv where
  structFlags : String → List Bool
  enumFlags : String → String → List Bool

mutual

/-- Value-level semantics of into_owned: Cow values become owned keeping
their data (the library Cow impl), primitives and strings are identity
(the library primitive impls), containers map the operation over their
content (the library Vec, Option and Result impls), and derived structs
and enums convert field by field according to their generated flags. -/
def intoOwned (env : SchemaEnv) : Val → Val
  | .cowVal _ data => .cowVal true data
  | .primVal n => .primVal n
  | .strVal s => .strVal s
  | .vecVal elems => .vecVal (intoOwnedList env elems)
  | .optVal none => .optVal none
  | .optVal (some v) => .optVal (some (intoOwned env v))
  | .okVal v => .okVal (intoOwned env v)
  | .errVal v => .errVal (intoOwned env v)
  | .structVal name fields =>
      .structVal name (applyFieldFlags env (env.structFlags name) fields)
  | .enumVal name variant fields =>
      .enumVal name variant (applyFieldFlags env (env.enumFlags name variant) fields)

/-- into_owned mapped over the elements of a Vec value. -/
def intoOwnedList (env : SchemaEnv) : List Val → List Val
  | [] => []
  | v :: vs => intoOwned env v :: intoOwnedList env vs

/-- The generated per-field rule: a field whose flag is true is converted
by into_owned, every other field passes through unchanged, in order. -/
def applyFieldFlags (env : SchemaEnv) : List Bool → List Val → List Val
  | [], vs => vs
  | _ :: _, [] => []
  | flag :: flags, v :: vs =>
      (if flag then intoOwned env v else v) :: applyFieldFlags env flags vs

end

mutual

/-- Borrow-dependence predicate transcribed from the words of the claim:
true for a reference annotated with the scope identifier, true for a path
type when an angle-bracketed argument or a parenthesized input or output
depends on the scope, true for a tuple, array, raw-pointer, slice,
parenthesized or grouped type whose elements depend on the scope, and
false for every other type expression; in particular a reference not
annotated with the scope is false regardless of its referent. -/
def claimDependsOnScope : RustType → List String → Bool
  | .reference lt _, scope =>
      match lt with
      | some l => lifetimeMatches l scope
      | none => false
  | .path segments, scope => claimSegmentsDepend segments scope
  | .tuple elems, scope => claimTypeListDepends elems scope
  | .array elem, scope => claimDependsOnScope elem scope
  | .ptr elem, scope => claimDependsOnScope elem scope
  | .slice elem, scope => claimDependsOnScope elem scope
  | .paren elem, scope => claimDependsOnScope elem scope
  | .group elem, scope => claimDependsOnScope elem scope
  | .otherTy, _ => false

/-- Claim-side path rule: some segment has a dependent argument. -/
def claimSegmentsDepend : SegmentList → List String → Bool
  | .nil, _ => false
  | .cons _ args rest, scope =>
      claimPathArgsDepend args scope || claimSegmentsDepend rest scope

/-- Claim-side rule for the arguments of one segment. -/
def claimPathArgsDepend : PathArgs → List String → Bool
  | .noArgs, _ => false
  | .angleBracketed args, scope => claimArgListDepends args scope
  | .parenthesized inputs output, scope =>
      claimTypeListDepends inputs scope ||
      (match output with
       | .ty t => claimDependsOnScope t scope
       | .defaultRet => false)

/-- Claim-side disjunction over angle-bracketed arguments. -/
def claimArgListDepends : ArgList → List String → Bool
  | .nil, _ => false
  | .cons arg rest, scope =>
      claimGenericArgDepends arg scope || claimArgListDepends rest scope

/-- Claim-side rule for one angle-bracketed argument: a matching lifetime,
a dependent type or associated-type binding, or a matching constraint
lifetime bound. -/
def claimGenericArgDepends : GenericArg → List String → Bool
  | .lifetimeArg lt, scope => lifetimeMatches lt scope
  | .typeArg ty, scope => claimDependsOnScope ty scope
  | .assocTypeArg ty, scope => claimDependsOnScope ty scope
  | .constraintArg bounds, scope =>
      bounds.any (fun bound =>
        match bound with
        | .lifetimeBound lt => lifetimeMatches lt scope
        | .otherBound => false)
  | .otherArg, _ => false

/-- Claim-side disjunction over a list of element types. -/
def claimTypeListDepends : RustTypeList → List String → Bool
  | .nil, _ => false
  | .cons ty rest, scope =>
      claimDependsOnScope ty scope || claimTypeListDepends rest scope

end

mutual

/-- Borrow-dependence predicate per the amended claim: as the claim states
it, except that a reference is also dependent when its referent type
recursively depends on the scope. -/
def amendedDependsOnScope : RustType → List String → Bool
  | .reference lt elem, scope =>
      (match lt with
       | some l => lifetimeMatches l scope
       | none => false)
      || amendedDependsOnScope elem scope
  | .path segments, scope => amendedSegmentsDepend segments scope
  | .tuple elems, scope => amendedTypeListDepends elems scope
  | .array elem, scope => amendedDependsOnScope elem scope
  | .ptr elem, scope => amendedDependsOnScope elem scope
  | .slice elem, scope => amendedDependsOnScope elem scope
  | .paren elem, scope => amendedDependsOnScope elem scope
  | .group elem, scope => amendedDependsOnScope elem scope
  | .otherTy, _ => false

/-- Amended-claim path rule: some segment has a dependent argument. -/
def amendedSegmentsDepend : SegmentList → List String → Bool
  | .nil, _ => false
  | .cons _ args rest, scope =>
      amendedPathArgsDepend args scope || amendedSegmentsDepend rest scope

/-- Amended-claim rule for the arguments of one segment. -/
def amendedPathArgsDepend : PathArgs → List String → Bool
  | .noArgs, _ => false
  | .angleBracketed args, scope => amendedArgListDepends args scope
  | .parenthesized inputs output, scope =>
      amendedTypeListDepends inputs scope ||
      (match output with
       | .ty t => amendedDependsOnScope t scope
       | .defaultRet => false)

/-- Amended-claim disjunction over angle-bracketed arguments. -/
def amendedArgListDepends : ArgList → List String → Bool
  | .nil, _ => false
  | .cons arg rest, scope =>
      amendedGenericArgDepends arg scope || amendedArgListDepends rest scope

/-- Amended-claim rule for one angle-bracketed argument. -/
def amendedGenericArgDepends : GenericArg → List String → Bool
  | .lifetimeArg lt, scope => lifetimeMatches lt scope
  | .typeArg ty, scope => amendedDependsOnScope ty scope
  | .assocTypeArg ty, scope => amendedDependsOnScope ty scope
  | .constraintArg bounds, scope =>
      bounds.any (fun bound =>
        match bound with
        | .lifetimeBound lt => lifetimeMatches lt scope
        | .otherBound => false)
  | .otherArg, _ => false

/-- Amended-claim disjunction over a list of element types. -/
def amendedTypeListDepends : RustTypeList → List String → Bool
  | .nil, _ => false
  | .cons ty rest, scope =>
      amendedDependsOnScope ty scope || amendedTypeListDepends rest scope

end

/-- The bare str path type. -/
def strTy : RustType := .path (.cons "str" .noArgs .nil)

/-- The bare String path type. -/
def stringTy : RustType := .path (.cons "String" .noArgs .nil)

/-- A reference to str annotated with the given lifetime. -/
def refStr (lt : String) : RustType := .reference (some lt) strTy

/-- The type Cow of the given lifetime and str. -/
def cowStrTy (lt : String) : RustType :=
  .path (.cons "Cow"
    (.angleBracketed (.cons (.lifetimeArg lt) (.cons (.typeArg strTy) .nil))) .nil)

/-- A reference with an unrelated lifetime whose referent borrows the
scope: the type written as a reference b to a reference a to str. -/
def nestedRefTy : RustType := .reference (some "b") (refStr "a")

/-- The derive input of struct Borrowed with one lifetime a and one field
value of type reference a to str, as in the test suite. -/
def borrowedInput : DeriveInputDecl :=
  { attrs := [], ident := "Borrowed",
    generics := [.lifetimeParam "a" 10],
    data := .structData (.named [("value", refStr "a")]) }

/-- The derive input of struct Owned with no lifetimes and one String
field, as in the test suite. -/
def ownedInput : DeriveInputDecl :=
  { attrs := [], ident := "Owned", generics := [],
    data := .structData (.named [("value", stringTy)]) }

/-- The derive input of struct ZerocopyBytes with one lifetime a and one
const parameter LEN, as in the test suite. -/
def zerocopyInput : DeriveInputDecl :=
  { attrs := [], ident := "ZerocopyBytes",
    generics := [.lifetimeParam "a" 20, .constParam "LEN"],
    data := .structData (.named [("bytes", refStr "a")]) }

/-- A poly list attribute carrying one name item. -/
def nameAttr (s : String) (sp : Span) : AttributeDecl :=
  { isPolyPath := true, meta := .listMeta [.nameItem s sp], span := sp }

/-- The derive input of struct WithCustomName with one lifetime and the
naming attribute BorrowedAlias, as in the test suite. -/
def withCustomNameInput : DeriveInputDecl :=
  { attrs := [nameAttr "BorrowedAlias" 30], ident := "WithCustomName",
    generics := [.lifetimeParam "a" 31],
    data := .structData (.named [("data", refStr "a")]) }

/-- A lifetime-free struct carrying the naming attribute, which the
generator must reject. -/
def ownedWithAttrInput : DeriveInputDecl :=
  { attrs := [nameAttr "Bad" 40], ident := "Owned", generics := [],
    data := .structData (.named [("value", stringTy)]) }

/-- A struct declaring two lifetime parameters a and b. -/
def twoLtInput : DeriveInputDecl :=
  { attrs := [], ident := "TwoLifetimes",
    generics := [.lifetimeParam "a" 50, .lifetimeParam "b" 51],
    data := .structData (.named [("x", refStr "a"), ("y", refStr "b")]) }

/-- An enum declaring two lifetime parameters a and b, with one payload
variant per lifetime and a unit variant. -/
def twoLtEnumInput : DeriveInputDecl :=
  { attrs := [], ident := "TwoLifetimesEnum",
    generics := [.lifetimeParam "a" 70, .lifetimeParam "b" 71],
    data := .enumData
      [⟨"First", .unnamed [refStr "a"]⟩,
       ⟨"Second", .unnamed [refStr "b"]⟩,
       ⟨"Unit", .unit⟩] }

/-- The derive input of enum SimpleEnum with a borrowing payload variant,
an owned payload variant and a unit variant, as in the test suite. -/
def simpleEnumInput : DeriveInputDecl :=
  { attrs := [], ident := "SimpleEnum",
    generics := [.lifetimeParam "a" 60],
    data := .enumData
      [⟨"Borrowed", .unnamed [cowStrTy "a"]⟩,
       ⟨"Owned", .unnamed [stringTy]⟩,
       ⟨"Unit", .unit⟩] }

/-- Whether the data of a derive input is a union. -/
def isUnionData : DataDecl → Bool
  | .unionData _ => true
  | _ => false

/-- The DeserializePoly output arguments are the schema instantiated at
the de scope. -/
theorem outTyArgs_eq_instantiateAt (g : List GenericParam) :
    outTyArgs g = instantiateAt g "de" := by
  induction g with
  | nil => rfl
  | cons p rest ih => cases p <;> simp [outTyArgs, instantiateAt, ih]

/-- The impl-head arguments of the owned generics are the schema
instantiated at the static scope. -/
theorem tyGenericsArgs_ownedGenerics (g : List GenericParam) :
    tyGenericsArgs (ownedGenerics g) = instantiateAt g "static" := by
  induction g with
  | nil => rfl
  | cons p rest ih =>
      simp only [tyGenericsArgs, ownedGenerics, instantiateAt, List.map_cons] at ih ⊢
      rw [ih]
      cases p <;> rfl

/-- Characterization of expand_poly on a non-union input whose generics
carry exactly one lifetime parameter: the tag struct, its serde Serialize
impl, the DeserializePoly impl on the tag and the SerializePoly impl on
the schema, in that order. -/
theorem expand_poly_one_lifetime (inp : DeriveInputDecl) (pn : PolyName)
    (lt : String) (sp : Span)
    (hu : isUnionData inp.data = false)
    (hp : parse_poly_name inp.attrs inp.ident = .ok pn)
    (hl : lifetimeParams inp.generics = [(lt, sp)]) :
    expand_poly inp = .ok
      [.polyStructItem ⟨pn.ident, nonLifetimeParams inp.generics,
          phantomFields (nonLifetimeParams inp.generics)⟩,
       .serdeSerializeItem pn.ident pn.ident,
       .deserializePolyItem pn.ident (polyTyArgs (nonLifetimeParams inp.generics))
          (.namedTy inp.ident (outTyArgs inp.generics)),
       .serializePolyItem inp.ident (tyGenericsArgs inp.generics)
          (.namedTy pn.ident (polyTyArgs (nonLifetimeParams inp.generics)))] := by
  cases hd : inp.data with
  | unionData s => rw [hd] at hu; simp [isUnionData] at hu
  | structData f => simp [expand_poly, hd, hp, hl]
  | enumData v => simp [expand_poly, hd, hp, hl]

/-- Characterization of expand_poly on a non-union input with no lifetime
parameters and no naming attribute: only the two identity impls are
generated. -/
theorem expand_poly_no_lifetime (inp : DeriveInputDecl) (pn : PolyName)
    (hu : isUnionData inp.data = false)
    (hp : parse_poly_name inp.attrs inp.ident = .ok pn)
    (hns : pn.attr_span = none)
    (hl : lifetimeParams inp.generics = []) :
    expand_poly inp = .ok
      [.deserializePolyItem inp.ident (tyGenericsArgs inp.generics) .selfTy,
       .serializePolyItem inp.ident (tyGenericsArgs inp.generics) .selfTy] := by
  cases hd : inp.data with
  | unionData s => rw [hd] at hu; simp [isUnionData] at hu
  | structData f => simp [expand_poly, hd, hp, hl, hns]
  | enumData v => simp [expand_poly, hd, hp, hl, hns]

/-- Whether the attribute list carries an explicit poly name override. -/
def hasNameOverride (attrs : List AttributeDecl) : Bool :=
  attrs.any (fun attr =>
    attr.isPolyPath &&
      match attr.meta with
      | .listMeta items =>
          items.any (fun item =>
            match item with
            | .nameItem _ _ => true
            | .otherItem _ => false)
      | _ => false)

/-- Without a name item the nested-item pass leaves the provided name
unchanged. -/
theorem parse_meta_items_no_name (items : List PolyMetaItem)
    (provided : Option String) (sp s : Option Span) (p : Option String)
    (hno : items.all (fun item =>
      match item with
      | .nameItem _ _ => false
      | .otherItem _ => true) = true)
    (h : parse_meta_items items provided sp = .ok (p, s)) :
    p = provided ∧ s = sp := by
  induction items generalizing provided sp with
  | nil => simp [parse_meta_items] at h; exact ⟨h.1.symm, h.2.symm⟩
  | cons item rest ih =>
      cases item with
      | nameItem v vs => simp at hno
      | otherItem os => simp [parse_meta_items] at h

/-- Without a name override the attribute pass leaves the provided name
unchanged. -/
theorem parse_poly_attrs_no_override (attrs : List AttributeDecl)
    (provided : Option String) (sp s : Option Span) (p : Option String)
    (hno : hasNameOverride attrs = false)
    (h : parse_poly_attrs attrs provided sp = .ok (p, s)) :
    p = provided := by
  induction attrs generalizing provided sp with
  | nil => simp [parse_poly_attrs] at h; exact h.1.symm
  | cons attr rest ih =>
      simp only [hasNameOverride, List.any_cons, Bool.or_eq_false_iff,
        Bool.and_eq_false_iff] at hno
      obtain ⟨hno1, hno2⟩ := hno
      by_cases hpoly : attr.isPolyPath
      · cases hm : attr.meta with
        | pathMeta =>
            rw [parse_poly_attrs, if_pos hpoly, hm] at h
            exact ih provided sp (by simpa [hasNameOverride] using hno2) h
        | listMeta items =>
            rw [parse_poly_attrs, if_pos hpoly, hm] at h
            dsimp only at h
            rcases hno1 with hfalse | hitems
            · simp [hpoly] at hfalse
            · rw [hm] at hitems
              dsimp only at hitems
              cases hmi : parse_meta_items items provided sp with
              | error e => rw [hmi] at h; exact absurd h (by simp)
              | ok ps =>
                  obtain ⟨pmid, smid⟩ := ps
                  rw [hmi] at h
                  dsimp only at h
                  obtain ⟨hp1, _⟩ := parse_meta_items_no_name items provided sp smid pmid
                    (by
                      simp only [List.any_eq_false] at hitems
                      simp only [List.all_eq_true]
                      intro item hmem
                      have := hitems item hmem
                      cases item <;> simp_all) hmi
                  subst hp1
                  exact ih _ _ (by simpa [hasNameOverride] using hno2) h
        | nameValueMeta =>
            rw [parse_poly_attrs, if_pos hpoly, hm] at h
            exact absurd h (by simp)
      · rw [parse_poly_attrs, if_neg hpoly] at h
        exact ih provided sp (by simpa [hasNameOverride] using hno2) h

/-- Without a name override the resolved tag name is the original name
with the suffix Poly appended. -/
theorem parse_poly_name_default (attrs : List AttributeDecl) (original : String)
    (pn : PolyName)
    (hno : hasNameOverride attrs = false)
    (h : parse_poly_name attrs original = .ok pn) :
    pn.ident = original ++ "Poly" := by
  rw [parse_poly_name] at h
  cases hpa : parse_poly_attrs attrs none none with
  | error e => rw [hpa] at h; exact absurd h (by simp)
  | ok ps =>
      obtain ⟨p, s⟩ := ps
      rw [hpa] at h
      have hp := parse_poly_attrs_no_override attrs none none s p hno hpa
      subst hp
      simp only [Except.ok.injEq] at h
      rw [← h]
      rfl

mutual

/-- The amended-claim predicate agrees with the source analyzer on every
type expression. -/
theorem amendedEqSourceTy : ∀ (ty : RustType) (scope : List String),
    amendedDependsOnScope ty scope = type_contains_any_lifetime ty scope
  | .reference lt elem, scope => by
      simp only [amendedDependsOnScope, type_contains_any_lifetime,
        amendedEqSourceTy elem scope]
  | .path segments, scope => by
      simp only [amendedDependsOnScope, type_contains_any_lifetime]
      exact amendedEqSourceSegs segments scope
  | .tuple elems, scope => by
      simp only [amendedDependsOnScope, type_contains_any_lifetime]
      exact amendedEqSourceTyList elems scope
  | .array elem, scope => by
      simp only [amendedDependsOnScope, type_contains_any_lifetime]
      exact amendedEqSourceTy elem scope
  | .ptr elem, scope => by
      simp only [amendedDependsOnScope, type_contains_any_lifetime]
      exact amendedEqSourceTy elem scope
  | .slice elem, scope => by
      simp only [amendedDependsOnScope, type_contains_any_lifetime]
      exact amendedEqSourceTy elem scope
  | .paren elem, scope => by
      simp only [amendedDependsOnScope, type_contains_any_lifetime]
      exact amendedEqSourceTy elem scope
  | .group elem, scope => by
      simp only [amendedDependsOnScope, type_contains_any_lifetime]
      exact amendedEqSourceTy elem scope
  | .otherTy, scope => by
      simp only [amendedDependsOnScope, type_contains_any_lifetime]

/-- The amended-claim predicate agrees with the source analyzer on path
segments. -/
theorem amendedEqSourceSegs : ∀ (segments : SegmentList) (scope : List String),
    amendedSegmentsDepend segments scope = segments_contain_lifetime segments scope
  | .nil, scope => by
      simp only [amendedSegmentsDepend, segments_contain_lifetime]
  | .cons i args rest, scope => by
      simp only [amendedSegmentsDepend, segments_contain_lifetime,
        amendedEqSourcePathArgs args scope, amendedEqSourceSegs rest scope]

/-- The amended-claim predicate agrees with the source analyzer on the
arguments of one segment. -/
theorem amendedEqSourcePathArgs : ∀ (args : PathArgs) (scope : List String),
    amendedPathArgsDepend args scope = path_args_contain_lifetime args scope
  | .noArgs, scope => by
      simp only [amendedPathArgsDepend, path_args_contain_lifetime]
  | .angleBracketed args, scope => by
      simp only [amendedPathArgsDepend, path_args_contain_lifetime]
      exact amendedEqSourceArgList args scope
  | .parenthesized inputs output, scope => by
      cases output with
      | defaultRet =>
          simp only [amendedPathArgsDepend, path_args_contain_lifetime,
            amendedEqSourceTyList inputs scope]
      | ty t =>
          simp only [amendedPathArgsDepend, path_args_contain_lifetime,
            amendedEqSourceTyList inputs scope, amendedEqSourceTy t scope]

/-- The amended-claim predicate agrees with the source analyzer on lists
of generic arguments. -/
theorem amendedEqSourceArgList : ∀ (args : ArgList) (scope : List String),
    amendedArgListDepends args scope = arg_list_contains_lifetime args scope
  | .nil, scope => by
      simp only [amendedArgListDepends, arg_list_contains_lifetime]
  | .cons arg rest, scope => by
      simp only [amendedArgListDepends, arg_list_contains_lifetime,
        amendedEqSourceArg arg scope, amendedEqSourceArgList rest scope]

/-- The amended-claim predicate agrees with the source analyzer on one
generic argument. -/
theorem amendedEqSourceArg : ∀ (arg : GenericArg) (scope : List String),
    amendedGenericArgDepends arg scope = generic_arg_contains_lifetime arg scope
  | .lifetimeArg lt, scope => by
      simp only [amendedGenericArgDepends, generic_arg_contains_lifetime]
  | .typeArg ty, scope => by
      simp only [amendedGenericArgDepends, generic_arg_contains_lifetime]
      exact amendedEqSourceTy ty scope
  | .assocTypeArg ty, scope => by
      simp only [amendedGenericArgDepends, generic_arg_contains_lifetime]
      exact amendedEqSourceTy ty scope
  | .constraintArg bounds, scope => by
      simp only [amendedGenericArgDepends, generic_arg_contains_lifetime]
  | .otherArg, scope => by
      simp only [amendedGenericArgDepends, generic_arg_contains_lifetime]

/-- The amended-claim predicate agrees with the source analyzer on lists
of element types. -/
theorem amendedEqSourceTyList : ∀ (elems : RustTypeList) (scope : List String),
    amendedTypeListDepends elems scope = type_list_contains_lifetime elems scope
  | .nil, scope => by
      simp only [amendedTypeListDepends, type_list_contains_lifetime]
  | .cons ty rest, scope => by
      simp only [amendedTypeListDepends, type_list_contains_lifetime,
        amendedEqSourceTy ty scope, amendedEqSourceTyList rest scope]

end

/-- Characterization of expand_ownable_poly on an input with no lifetime
parameters: the identity impl with Owned equal to Self, for every data
shape. -/
theorem expand_ownable_poly_no_lifetime (inp : DeriveInputDecl)
    (hl : lifetimeParams inp.generics = []) :
    expand_ownable_poly inp = .ok
      ⟨inp.ident, tyGenericsArgs inp.generics, .selfTy, .identityBody⟩ := by
  simp [expand_ownable_poly, hl]

/-- Mapping into_owned over a Vec is idempotent once it is idempotent on
every element. -/
theorem intoOwnedList_idem_of (env : SchemaEnv) (vs : List Val)
    (h : ∀ v ∈ vs, intoOwned env (intoOwned env v) = intoOwned env v) :
    intoOwnedList env (intoOwnedList env vs) = intoOwnedList env vs := by
  induction vs with
  | nil => rfl
  | cons v vs ih =>
      simp only [intoOwnedList]
      rw [h v (by simp), ih (fun w hw => h w (by simp [hw]))]

/-- The generated per-field rule is idempotent once into_owned is
idempotent on every field value, whatever the flags are. -/
theorem applyFieldFlags_idem_of (env : SchemaEnv) (flags : List Bool) (vs : List Val)
    (h : ∀ v ∈ vs, intoOwned env (intoOwned env v) = intoOwned env v) :
    applyFieldFlags env flags (applyFieldFlags env flags vs) =
      applyFieldFlags env flags vs := by
  induction flags generalizing vs with
  | nil => simp [applyFieldFlags]
  | cons flag flags ih =>
      cases vs with
      | nil => simp [applyFieldFlags]
      | cons v vs =>
          cases flag with
          | true =>
              simp only [applyFieldFlags, if_true]
              rw [h v (by simp), ih vs (fun w hw => h w (by simp [hw]))]
          | false =>
              simp only [applyFieldFlags, Bool.false_eq_true, if_false]
              rw [ih vs (fun w hw => h w (by simp [hw]))]

/-- Idempotence of the value-level into_owned, by strong induction on the
size of the value. -/
theorem intoOwned_idem_aux (env : SchemaEnv) :
    ∀ n : Nat, ∀ v : Val, sizeOf v ≤ n →
      intoOwned env (intoOwned env v) = intoOwned env v := by
  intro n
  induction n with
  | zero =>
      intro v h
      exfalso
      cases v <;> simp at h
  | succ n ih =>
      intro v h
      match v with
      | .cowVal b s => simp only [intoOwned]
      | .primVal k => simp only [intoOwned]
      | .strVal s => simp only [intoOwned]
      | .vecVal elems =>
          simp only [intoOwned]
          rw [intoOwnedList_idem_of env elems]
          intro w hw
          apply ih
          have h1 : sizeOf w < sizeOf elems := List.sizeOf_lt_of_mem hw
          have h2 : sizeOf (Val.vecVal elems) = 1 + sizeOf elems := by simp
          omega
      | .optVal none => simp only [intoOwned]
      | .optVal (some w) =>
          simp only [intoOwned]
          rw [ih w (by simp at h ⊢; omega)]
      | .okVal w =>
          simp only [intoOwned]
          rw [ih w (by simp at h ⊢; omega)]
      | .errVal w =>
          simp only [intoOwned]
          rw [ih w (by simp at h ⊢; omega)]
      | .structVal name fields =>
          simp only [intoOwned]
          rw [applyFieldFlags_idem_of env (env.structFlags name) fields]
          intro w hw
          apply ih
          have h1 : sizeOf w < sizeOf fields := List.sizeOf_lt_of_mem hw
          have h2 : sizeOf (Val.structVal name fields) = 1 + sizeOf name + sizeOf fields := by
            simp
          omega
      | .enumVal name variant fields =>
          simp only [intoOwned]
          rw [applyFieldFlags_idem_of env (env.enumFlags name variant) fields]
          intro w hw
          apply ih
          have h1 : sizeOf w < sizeOf fields := List.sizeOf_lt_of_mem hw
          have h2 : sizeOf (Val.enumVal name variant fields) =
              1 + sizeOf name + sizeOf variant + sizeOf fields := by simp
          omega

/-- The phantom fields of a lifetime-free parameter list, expressed as a
direct map: one typed marker per type parameter and one unit marker per
const parameter. -/
theorem phantomFields_nonLifetime (g : List GenericParam) :
    phantomFields (nonLifetimeParams g) =
      (nonLifetimeParams g).map (fun param =>
        match param with
        | .typeParam n => .typeMarker n
        | _ => .constMarker) := by
  induction g with
  | nil => rfl
  | cons p rest ih =>
      simp only [phantomFields, nonLifetimeParams] at ih
      cases p <;> simp [phantomFields, nonLifetimeParams, ih]

/-- C1: for a schema with exactly one borrow-scope parameter, the
generated erase mapping sends the schema, generically in its scope, to
the tag type applied to the non-scope parameters verbatim, and the
generated restore mapping on the tag yields the schema instantiated at
the caller-chosen de scope with every other parameter unchanged in its
original position, so composing erase with restore at de is exactly the
schema instantiated at de. -/
theorem c1_erase_restore (inp : DeriveInputDecl) (pn : PolyName)
    (lt : String) (sp : Span)
    (hu : isUnionData inp.data = false)
    (hp : parse_poly_name inp.attrs inp.ident = .ok pn)
    (hl : lifetimeParams inp.generics = [(lt, sp)]) :
    expand_poly inp = .ok
      [.polyStructItem ⟨pn.ident, nonLifetimeParams inp.generics,
          phantomFields (nonLifetimeParams inp.generics)⟩,
       .serdeSerializeItem pn.ident pn.ident,
       .deserializePolyItem pn.ident (polyTyArgs (nonLifetimeParams inp.generics))
          (.namedTy inp.ident (instantiateAt inp.generics "de")),
       .serializePolyItem inp.ident (tyGenericsArgs inp.generics)
          (.namedTy pn.ident (polyTyArgs (nonLifetimeParams inp.generics)))] := by
  rw [expand_poly_one_lifetime inp pn lt sp hu hp hl, outTyArgs_eq_instantiateAt]

/-- Witness for C1 at the Borrowed schema of the test suite. -/
theorem c1_erase_restore_witness :
    isUnionData borrowedInput.data = false ∧
    parse_poly_name borrowedInput.attrs borrowedInput.ident =
      .ok ⟨"BorrowedPoly", none⟩ ∧
    lifetimeParams borrowedInput.generics = [("a", 10)] ∧
    expand_poly borrowedInput = .ok
      [.polyStructItem ⟨"BorrowedPoly", [], []⟩,
       .serdeSerializeItem "BorrowedPoly" "BorrowedPoly",
       .deserializePolyItem "BorrowedPoly" []
          (.namedTy "Borrowed" [.lifetimeArgOut "de"]),
       .serializePolyItem "Borrowed" [.lifetimeArgOut "a"]
          (.namedTy "BorrowedPoly" [])] :=
  ⟨rfl, rfl, rfl, by
    have h := c1_erase_restore borrowedInput ⟨"BorrowedPoly", none⟩ "a" 10 rfl rfl rfl
    exact h⟩

/-- C2: for a schema with one borrow-scope parameter the generated
into_owned processes the fields in declaration order, recursing exactly
on the fields whose type depends on the scope and passing every other
field through, reassembling the struct with the scope fixed to static;
for an enum it dispatches per variant, preserving the variant name and
applying the same per-field rule to named and unnamed payloads, with
unit variants mapped to themselves. -/
theorem c2_into_owned_shape (inp : DeriveInputDecl) (lt : String) (sp : Span)
    (hl : lifetimeParams inp.generics = [(lt, sp)]) :
    (∀ fs, inp.data = .structData (.named fs) →
      expand_ownable_poly inp = .ok
        ⟨inp.ident, tyGenericsArgs inp.generics,
         .namedTy inp.ident (instantiateAt inp.generics "static"),
         .structBody inp.ident (.namedFields (fs.map (fun f =>
           (f.1, type_contains_any_lifetime f.2 [lt]))))⟩) ∧
    (∀ fs, inp.data = .structData (.unnamed fs) →
      expand_ownable_poly inp = .ok
        ⟨inp.ident, tyGenericsArgs inp.generics,
         .namedTy inp.ident (instantiateAt inp.generics "static"),
         .structBody inp.ident (.unnamedFields (fs.enum.map (fun p =>
           (p.1, type_contains_any_lifetime p.2 [lt]))))⟩) ∧
    (inp.data = .structData .unit →
      expand_ownable_poly inp = .ok
        ⟨inp.ident, tyGenericsArgs inp.generics,
         .namedTy inp.ident (instantiateAt inp.generics "static"),
         .structBody inp.ident .unitFields⟩) ∧
    (∀ vars, inp.data = .enumData vars →
      expand_ownable_poly inp = .ok
        ⟨inp.ident, tyGenericsArgs inp.generics,
         .namedTy inp.ident (instantiateAt inp.generics "static"),
         .enumBody inp.ident (vars.map (fun v =>
           match v.fields with
           | .named fs => .namedArm v.name (fs.map (fun f =>
               (f.1, type_contains_any_lifetime f.2 [lt])))
           | .unnamed fs => .unnamedArm v.name (fs.enum.map (fun p =>
               (p.1, type_contains_any_lifetime p.2 [lt])))
           | .unit => .unitArm v.name))⟩) := by
  refine ⟨?_, ?_, ?_, ?_⟩
  · intro fs hd
    simp [expand_ownable_poly, hd, hl, generate_field_transformations,
      tyGenericsArgs_ownedGenerics]
  · intro fs hd
    simp [expand_ownable_poly, hd, hl, generate_field_transformations,
      tyGenericsArgs_ownedGenerics]
  · intro hd
    simp [expand_ownable_poly, hd, hl, generate_field_transformations,
      tyGenericsArgs_ownedGenerics]
  · intro vars hd
    simp [expand_ownable_poly, hd, hl, generate_enum_transformation,
      tyGenericsArgs_ownedGenerics]

/-- Witness for C2 at the SimpleEnum schema of the test suite: the
borrowing payload variant recurses, the owned payload variant passes
through, the unit variant maps to itself. -/
theorem c2_into_owned_shape_witness :
    lifetimeParams simpleEnumInput.generics = [("a", 60)] ∧
    expand_ownable_poly simpleEnumInput = .ok
      ⟨"SimpleEnum", [.lifetimeArgOut "a"],
       .namedTy "SimpleEnum" [.lifetimeArgOut "static"],
       .enumBody "SimpleEnum"
         [.unnamedArm "Borrowed" [(0, true)],
          .unnamedArm "Owned" [(0, false)],
          .unitArm "Unit"]⟩ :=
  ⟨rfl, by
    have h := (c2_into_owned_shape simpleEnumInput "a" 60 rfl).2.2.2 _ rfl
    exact h⟩

/-- C3: for a schema with no borrow-scope parameter all three artifacts
are the identity: the SerializePoly output is Self, the DeserializePoly
output is Self for every scope, and the OwnablePoly impl has Owned equal
to Self with the bare self body. -/
theorem c3_identity_case (inp : DeriveInputDecl) (pn : PolyName)
    (hu : isUnionData inp.data = false)
    (hp : parse_poly_name inp.attrs inp.ident = .ok pn)
    (hns : pn.attr_span = none)
    (hl : lifetimeParams inp.generics = []) :
    expand_poly inp = .ok
      [.deserializePolyItem inp.ident (tyGenericsArgs inp.generics) .selfTy,
       .serializePolyItem inp.ident (tyGenericsArgs inp.generics) .selfTy] ∧
    expand_ownable_poly inp = .ok
      ⟨inp.ident, tyGenericsArgs inp.generics, .selfTy, .identityBody⟩ :=
  ⟨expand_poly_no_lifetime inp pn hu hp hns hl,
   expand_ownable_poly_no_lifetime inp hl⟩

/-- Witness for C3 at the Owned schema of the test suite. -/
theorem c3_identity_case_witness :
    isUnionData ownedInput.data = false ∧
    parse_poly_name ownedInput.attrs ownedInput.ident = .ok ⟨"OwnedPoly", none⟩ ∧
    (PolyName.mk "OwnedPoly" none).attr_span = none ∧
    lifetimeParams ownedInput.generics = [] ∧
    (expand_poly ownedInput = .ok
      [.deserializePolyItem "Owned" [] .selfTy,
       .serializePolyItem "Owned" [] .selfTy] ∧
     expand_ownable_poly ownedInput = .ok
      ⟨"Owned", [], .selfTy, .identityBody⟩) :=
  ⟨rfl, rfl, rfl, rfl, by
    have h := c3_identity_case ownedInput ⟨"OwnedPoly", none⟩ rfl rfl rfl rfl
    exact h⟩

/-- C4 counterexample: for the ZerocopyBytes schema, with one lifetime
parameter, one const parameter and no type parameters, the generated tag
struct carries one phantom marker field for the const parameter, so the
claim that const parameters get no marker field fails on this input
(its prediction here would be an empty field list). -/
theorem c4_counterexample :
    expand_poly zerocopyInput = .ok
      [.polyStructItem ⟨"ZerocopyBytesPoly", [.constParam "LEN"], [.constMarker]⟩,
       .serdeSerializeItem "ZerocopyBytesPoly" "ZerocopyBytesPoly",
       .deserializePolyItem "ZerocopyBytesPoly" [.paramArgOut "LEN"]
          (.namedTy "ZerocopyBytes" [.lifetimeArgOut "de", .paramArgOut "LEN"]),
       .serializePolyItem "ZerocopyBytes" [.lifetimeArgOut "a", .paramArgOut "LEN"]
          (.namedTy "ZerocopyBytesPoly" [.paramArgOut "LEN"])] ∧
    [PhantomField.constMarker] ≠ ([] : List PhantomField) :=
  ⟨rfl, by decide⟩

/-- C4 amended: the tag type is generic over exactly the schema's
non-scope parameters in order, and its fields are exactly one phantom
marker per retained parameter, a typed marker for each type parameter and
a unit marker for each const parameter; all fields being phantom markers,
the tag is zero-size. -/
theorem c4_tag_markers (inp : DeriveInputDecl) (pn : PolyName)
    (lt : String) (sp : Span)
    (hu : isUnionData inp.data = false)
    (hp : parse_poly_name inp.attrs inp.ident = .ok pn)
    (hl : lifetimeParams inp.generics = [(lt, sp)]) :
    ∃ rest, expand_poly inp = .ok
      (.polyStructItem ⟨pn.ident, nonLifetimeParams inp.generics,
        (nonLifetimeParams inp.generics).map (fun param =>
          match param with
          | .typeParam n => .typeMarker n
          | _ => .constMarker)⟩ :: rest) :=
  ⟨_, by rw [expand_poly_one_lifetime inp pn lt sp hu hp hl, phantomFields_nonLifetime]⟩

/-- Witness for the amended C4 at the ZerocopyBytes schema. -/
theorem c4_tag_markers_witness :
    isUnionData zerocopyInput.data = false ∧
    parse_poly_name zerocopyInput.attrs zerocopyInput.ident =
      .ok ⟨"ZerocopyBytesPoly", none⟩ ∧
    lifetimeParams zerocopyInput.generics = [("a", 20)] ∧
    ∃ rest, expand_poly zerocopyInput = .ok
      (.polyStructItem ⟨"ZerocopyBytesPoly", [.constParam "LEN"],
        [.constMarker]⟩ :: rest) :=
  ⟨rfl, rfl, rfl, by
    have h := c4_tag_markers zerocopyInput ⟨"ZerocopyBytesPoly", none⟩ "a" 20 rfl rfl rfl
    exact h⟩

/-- C5 counterexample: with no naming override the resolver gives schema
Borrowed the tag name BorrowedPoly, not BorrowedTag: the fixed suffix the
code appends is Poly, not Tag. -/
theorem c5_counterexample :
    parse_poly_name [] "Borrowed" = .ok ⟨"BorrowedPoly", none⟩ ∧
    "BorrowedPoly" ≠ "BorrowedTag" :=
  ⟨rfl, by decide⟩

/-- C5 amended: for a schema with exactly one borrow-scope parameter and
no naming override, the generated tag type's name is the schema's name
with the fixed suffix Poly appended. -/
theorem c5_default_name (inp : DeriveInputDecl) (pn : PolyName)
    (lt : String) (sp : Span)
    (hu : isUnionData inp.data = false)
    (hno : hasNameOverride inp.attrs = false)
    (hp : parse_poly_name inp.attrs inp.ident = .ok pn)
    (hl : lifetimeParams inp.generics = [(lt, sp)]) :
    ∃ rest, expand_poly inp = .ok
      (.polyStructItem ⟨inp.ident ++ "Poly", nonLifetimeParams inp.generics,
        phantomFields (nonLifetimeParams inp.generics)⟩ :: rest) := by
  have hdn := parse_poly_name_default inp.attrs inp.ident pn hno hp
  exact ⟨_, by rw [expand_poly_one_lifetime inp pn lt sp hu hp hl, hdn]⟩

/-- Witness for the amended C5 at the Borrowed schema. -/
theorem c5_default_name_witness :
    isUnionData borrowedInput.data = false ∧
    hasNameOverride borrowedInput.attrs = false ∧
    parse_poly_name borrowedInput.attrs borrowedInput.ident =
      .ok ⟨"BorrowedPoly", none⟩ ∧
    lifetimeParams borrowedInput.generics = [("a", 10)] ∧
    ∃ rest, expand_poly borrowedInput = .ok
      (.polyStructItem ⟨"BorrowedPoly", [], []⟩ :: rest) :=
  ⟨rfl, rfl, rfl, rfl, by
    have h := c5_default_name borrowedInput ⟨"BorrowedPoly", none⟩ "a" 10 rfl rfl rfl rfl
    exact h⟩

/-- C6 counterexample: on a schema with two lifetime parameters the Poly
expansion fails at the second lifetime, but the OwnablePoly expansion
does not fail: it succeeds and replaces every lifetime by static, so it
is not the case that every generation stage rejects such a schema. -/
theorem c6_counterexample :
    expand_poly twoLtInput =
      .error ⟨51, "Poly derive supports at most one lifetime parameter"⟩ ∧
    expand_ownable_poly twoLtInput = .ok
      ⟨"TwoLifetimes", [.lifetimeArgOut "a", .lifetimeArgOut "b"],
       .namedTy "TwoLifetimes" [.lifetimeArgOut "static", .lifetimeArgOut "static"],
       .structBody "TwoLifetimes" (.namedFields [("x", true), ("y", true)])⟩ :=
  ⟨rfl, rfl⟩

/-- Every non-union schema with at least one lifetime parameter is
accepted by the ownership-conversion generation, whatever its shape
(named, unnamed or unit struct, or enum), with the Owned type obtained by
replacing every lifetime with static. -/
theorem expand_ownable_poly_accepts (inp : DeriveInputDecl)
    (hu : isUnionData inp.data = false)
    (hne : lifetimeParams inp.generics ≠ []) :
    ∃ body, expand_ownable_poly inp = .ok
      ⟨inp.ident, tyGenericsArgs inp.generics,
       .namedTy inp.ident (instantiateAt inp.generics "static"), body⟩ := by
  have hie : (lifetimeParams inp.generics).isEmpty = false := by
    cases h : lifetimeParams inp.generics with
    | nil => exact absurd h hne
    | cons a l => rfl
  cases hd : inp.data with
  | unionData s => rw [hd] at hu; simp [isUnionData] at hu
  | structData fields =>
      cases fields with
      | named fs =>
          refine ⟨.structBody inp.ident (.namedFields (fs.map (fun f =>
            (f.1, type_contains_any_lifetime f.2
              ((lifetimeParams inp.generics).map Prod.fst))))), ?_⟩
          simp [expand_ownable_poly, hie, hd, generate_field_transformations,
            tyGenericsArgs_ownedGenerics]
      | unnamed fs =>
          refine ⟨.structBody inp.ident (.unnamedFields (fs.enum.map (fun p =>
            (p.1, type_contains_any_lifetime p.2
              ((lifetimeParams inp.generics).map Prod.fst))))), ?_⟩
          simp [expand_ownable_poly, hie, hd, generate_field_transformations,
            tyGenericsArgs_ownedGenerics]
      | unit =>
          refine ⟨.structBody inp.ident .unitFields, ?_⟩
          simp [expand_ownable_poly, hie, hd, generate_field_transformations,
            tyGenericsArgs_ownedGenerics]
  | enumData vars =>
      refine ⟨.enumBody inp.ident (vars.map (fun v =>
        match v.fields with
        | .named fs => .namedArm v.name (fs.map (fun f =>
            (f.1, type_contains_any_lifetime f.2
              ((lifetimeParams inp.generics).map Prod.fst))))
        | .unnamed fs => .unnamedArm v.name (fs.enum.map (fun p =>
            (p.1, type_contains_any_lifetime p.2
              ((lifetimeParams inp.generics).map Prod.fst))))
        | .unit => .unitArm v.name)), ?_⟩
      simp [expand_ownable_poly, hie, hd, generate_enum_transformation,
        tyGenericsArgs_ownedGenerics]

/-- C6 amended: every non-union schema with more than one lifetime
parameter, struct or enum of any field shape, is rejected by the tag
generation with an error located at the second lifetime parameter, while
the ownership-conversion generation accepts it and replaces every
lifetime with static. -/
theorem c6_multi_lifetime (inp : DeriveInputDecl) (pn : PolyName)
    (lt1 lt2 : String × Span) (more : List (String × Span))
    (hu : isUnionData inp.data = false)
    (hp : parse_poly_name inp.attrs inp.ident = .ok pn)
    (hl : lifetimeParams inp.generics = lt1 :: lt2 :: more) :
    expand_poly inp =
      .error ⟨lt2.2, "Poly derive supports at most one lifetime parameter"⟩ ∧
    ∃ body, expand_ownable_poly inp = .ok
      ⟨inp.ident, tyGenericsArgs inp.generics,
       .namedTy inp.ident (instantiateAt inp.generics "static"), body⟩ := by
  constructor
  · cases hd : inp.data with
    | unionData s => rw [hd] at hu; simp [isUnionData] at hu
    | structData f => simp [expand_poly, hd, hp, hl]
    | enumData v => simp [expand_poly, hd, hp, hl]
  · exact expand_ownable_poly_accepts inp hu (by rw [hl]; simp)

/-- Witness for the amended C6 at a two-lifetime enum schema. -/
theorem c6_multi_lifetime_witness :
    isUnionData twoLtEnumInput.data = false ∧
    parse_poly_name twoLtEnumInput.attrs twoLtEnumInput.ident =
      .ok ⟨"TwoLifetimesEnumPoly", none⟩ ∧
    lifetimeParams twoLtEnumInput.generics = [("a", 70), ("b", 71)] ∧
    (expand_poly twoLtEnumInput =
      .error ⟨71, "Poly derive supports at most one lifetime parameter"⟩ ∧
     ∃ body, expand_ownable_poly twoLtEnumInput = .ok
      ⟨"TwoLifetimesEnum", [.lifetimeArgOut "a", .lifetimeArgOut "b"],
       .namedTy "TwoLifetimesEnum" [.lifetimeArgOut "static", .lifetimeArgOut "static"],
       body⟩) :=
  ⟨rfl, rfl, rfl, by
    have h := c6_multi_lifetime twoLtEnumInput ⟨"TwoLifetimesEnumPoly", none⟩
      ("a", 70) ("b", 71) [] rfl rfl rfl
    exact h⟩

/-- C7: an explicit poly name attribute on a schema with one borrow-scope
parameter produces a tag type named exactly as supplied, and the same
attribute on a schema with no borrow-scope parameter makes generation
fail with the override-only-valid error at the attribute value. -/
theorem c7_name_override (inp1 inp2 : DeriveInputDecl)
    (s1 : String) (sp1 : Span) (s2 : String) (sp2 : Span)
    (lt : String) (lsp : Span)
    (h1a : inp1.attrs = [nameAttr s1 sp1])
    (h1u : isUnionData inp1.data = false)
    (h1l : lifetimeParams inp1.generics = [(lt, lsp)])
    (h2a : inp2.attrs = [nameAttr s2 sp2])
    (h2u : isUnionData inp2.data = false)
    (h2l : lifetimeParams inp2.generics = []) :
    (∃ rest, expand_poly inp1 = .ok
      (.polyStructItem ⟨s1, nonLifetimeParams inp1.generics,
         phantomFields (nonLifetimeParams inp1.generics)⟩ :: rest)) ∧
    expand_poly inp2 = .error ⟨sp2,
      "poly(name = \"...\") is only valid for types with a single lifetime parameter"⟩ := by
  have hp1 : parse_poly_name inp1.attrs inp1.ident = .ok ⟨s1, some sp1⟩ := by
    rw [h1a]; rfl
  have hp2 : parse_poly_name inp2.attrs inp2.ident = .ok ⟨s2, some sp2⟩ := by
    rw [h2a]; rfl
  constructor
  · exact ⟨_, by rw [expand_poly_one_lifetime inp1 ⟨s1, some sp1⟩ lt lsp h1u hp1 h1l]⟩
  · cases hd : inp2.data with
    | unionData u => rw [hd] at h2u; simp [isUnionData] at h2u
    | structData f => simp [expand_poly, hd, hp2, h2l]
    | enumData v => simp [expand_poly, hd, hp2, h2l]

/-- Witness for C7 at the WithCustomName schema and at a lifetime-free
schema carrying the naming attribute. -/
theorem c7_name_override_witness :
    withCustomNameInput.attrs = [nameAttr "BorrowedAlias" 30] ∧
    isUnionData withCustomNameInput.data = false ∧
    lifetimeParams withCustomNameInput.generics = [("a", 31)] ∧
    ownedWithAttrInput.attrs = [nameAttr "Bad" 40] ∧
    isUnionData ownedWithAttrInput.data = false ∧
    lifetimeParams ownedWithAttrInput.generics = [] ∧
    ((∃ rest, expand_poly withCustomNameInput = .ok
      (.polyStructItem ⟨"BorrowedAlias", [], []⟩ :: rest)) ∧
     expand_poly ownedWithAttrInput = .error ⟨40,
      "poly(name = \"...\") is only valid for types with a single lifetime parameter"⟩) := by
  refine ⟨rfl, rfl, rfl, rfl, rfl, rfl, ?_⟩
  have h := c7_name_override withCustomNameInput ownedWithAttrInput
    "BorrowedAlias" 30 "Bad" 40 "a" 31 rfl rfl rfl rfl rfl rfl
  exact h

/-- C8 counterexample: the type written as a reference with lifetime b to
a reference with lifetime a to str depends on scope a per the source
analyzer, which recurses into the referent of every reference, while the
claim as stated classifies it as not depending, since the outer reference
is not annotated with the scope and no other listed case applies. -/
theorem c8_counterexample :
    type_contains_any_lifetime nestedRefTy ["a"] = true ∧
    claimDependsOnScope nestedRefTy ["a"] = false :=
  ⟨rfl, rfl⟩

/-- C8 amended: the borrow-dependence predicate is as the claim states it,
with the reference case extended to also return true when the referent
type recursively depends on the scope; the predicate so amended agrees
with the source analyzer on every type expression and scope list. -/
theorem c8_analyzer_characterization (ty : RustType) (scope : List String) :
    amendedDependsOnScope ty scope = type_contains_any_lifetime ty scope :=
  amendedEqSourceTy ty scope

/-- C9: the ownership conversion is idempotent at the value level:
converting the result of a conversion returns it unchanged, for every
value of every derived schema, including Cow fields and container fields,
whatever per-field recursion flags the generator produced. -/
theorem c9_into_owned_idempotent (env : SchemaEnv) (v : Val) :
    intoOwned env (intoOwned env v) = intoOwned env v :=
  intoOwned_idem_aux env (sizeOf v) v (Nat.le_refl _)

/-- C10: for a schema with one borrow-scope parameter the generated items
contain a serde Serialize impl for the tag whose serialization is a unit
struct named exactly by the tag identifier, independent of the type
parameters, and contain no serde Deserialize impl for any target. -/
theorem c10_tag_serialize (inp : DeriveInputDecl) (pn : PolyName)
    (lt : String) (sp : Span)
    (hu : isUnionData inp.data = false)
    (hp : parse_poly_name inp.attrs inp.ident = .ok pn)
    (hl : lifetimeParams inp.generics = [(lt, sp)]) :
    ∃ items, expand_poly inp = .ok items ∧
      GeneratedItem.serdeSerializeItem pn.ident pn.ident ∈ items ∧
      ∀ t, GeneratedItem.serdeDeserializeItem t ∉ items := by
  refine ⟨_, expand_poly_one_lifetime inp pn lt sp hu hp hl, ?_, ?_⟩
  · simp
  · intro t
    simp

/-- Witness for C10 at the Borrowed schema. -/
theorem c10_tag_serialize_witness :
    isUnionData borrowedInput.data = false ∧
    parse_poly_name borrowedInput.attrs borrowedInput.ident =
      .ok ⟨"BorrowedPoly", none⟩ ∧
    lifetimeParams borrowedInput.generics = [("a", 10)] ∧
    ∃ items, expand_poly borrowedInput = .ok items ∧
      GeneratedItem.serdeSerializeItem "BorrowedPoly" "BorrowedPoly" ∈ items ∧
      ∀ t, GeneratedItem.serdeDeserializeItem t ∉ items :=
  ⟨rfl, rfl, rfl, by
    have h := c10_tag_serialize borrowedInput ⟨"BorrowedPoly", none⟩ "a" 10 rfl rfl rfl
    exact h⟩

end SerdePoly
